import Mathlib

/-!
Verification of the trovelore order-management application.

This file gives a shallow embedding, in Lean, of the parts of the
TypeScript source that the specification talks about:

* the record-payment form handler (src/app/payments/record/[id]/page.tsx),
* the Shopify order sync loop (src/app/api/sync/route.ts, processOrders),
* the retry helper of the Shopify API client (src/lib/shopify-api.ts),
* the orders REST handlers (src/app/api/orders/route.ts),
* the block / buyer DELETE handlers (src/app/api/blocks/route.ts and
  the buyers route).

Database access is modelled by explicit state passing over in-memory
tables; fallible database calls take an explicit failure oracle where a
claim depends on the error paths.  JavaScript numbers are modelled as
rationals; a SQL null in a numeric column is conflated with 0, which is
faithful here because the embedded code only tests those columns for
JavaScript truthiness, and 0, null and undefined are all falsy.
-/

namespace Trovelore

/-! ### Record-payment page: src/app/payments/record/[id]/page.tsx

The fields of an orders row that the page reads or writes. -/

structure Order where
  total_topay : ℚ
  payment_1 : ℚ
  payment_2 : ℚ
  payment_3 : ℚ
  payment_4 : ℚ
  date_p1 : Option String
  date_p2 : Option String
  date_p3 : Option String
  date_p4 : Option String
  payment_status : String
  deriving Repr, DecidableEq

/-- calculatePaidAmount (page lines 67 to 75): sums the four installment
columns, adding each only when it is truthy. -/
def calculatePaidAmount (o : Order) : ℚ :=
  let t0 : ℚ := 0
  let t1 := if o.payment_1 ≠ 0 then t0 + o.payment_1 else t0
  let t2 := if o.payment_2 ≠ 0 then t1 + o.payment_2 else t1
  let t3 := if o.payment_3 ≠ 0 then t2 + o.payment_3 else t2
  if o.payment_4 ≠ 0 then t3 + o.payment_4 else t3

/-- calculateOutstanding (page lines 78 to 83). -/
def calculateOutstanding (o : Order) : ℚ :=
  o.total_topay - calculatePaidAmount o

/-- The plain sum of the four installment columns of a row.  Used to state
properties about the paid total recorded in a saved row. -/
def paymentsSum (o : Order) : ℚ :=
  o.payment_1 + o.payment_2 + o.payment_3 + o.payment_4

/-- The default payment type and prefilled amount chosen by
loadOrderDetails (page lines 46 to 58) once the order has loaded. -/
def loadOrderDefaults (o : Order) : String × ℚ :=
  if o.payment_1 = 0 then
    ("deposit", if o.total_topay ≠ 0 then o.total_topay * 0.25 else 0)
  else if o.payment_2 = 0 then
    ("final", if o.total_topay ≠ 0 then o.total_topay * 0.75 else 0)
  else
    ("additional", 0)

/-- The amount set by handlePaymentTypeChange (page lines 86 to 98) when
the user selects a payment type. -/
def handlePaymentTypeChange (o : Order) (ty : String) : ℚ :=
  if ty = "deposit" then
    (if o.total_topay ≠ 0 then o.total_topay * 0.25 else 0)
  else if ty = "final" then
    calculateOutstanding o
  else 0

/-- The order written via upsertOrder by handleSubmit
(page lines 101 to 150): one installment column is assigned the submitted
amount, then payment_status is recomputed from the previously stored
installments plus the submitted amount. -/
def handleSubmit (o : Order) (paymentType : String) (paymentAmount : ℚ)
    (paymentDate : String) : Order :=
  let u :=
    if paymentType = "deposit" ∨ o.payment_1 = 0 then
      { o with payment_1 := paymentAmount, date_p1 := some paymentDate }
    else if paymentType = "final" ∨ o.payment_2 = 0 then
      { o with payment_2 := paymentAmount, date_p2 := some paymentDate }
    else if o.payment_3 = 0 then
      { o with payment_3 := paymentAmount, date_p3 := some paymentDate }
    else
      { o with payment_4 := paymentAmount, date_p4 := some paymentDate }
  let newPaidAmount := calculatePaidAmount o + paymentAmount
  let totalAmount := o.total_topay
  if newPaidAmount ≥ totalAmount then
    { u with payment_status := "Paid" }
  else if newPaidAmount > 0 then
    if paymentType = "deposit" ∨ newPaidAmount ≤ totalAmount * 0.25 then
      { u with payment_status := "Deposit Paid" }
    else
      { u with payment_status := "Partial Payment" }
  else u

/-- The disabled condition of the Record Payment button (page line 251). -/
def recordButtonDisabled (submitting : Bool) (paymentAmount : ℚ) : Bool :=
  submitting || decide (paymentAmount ≤ 0)

/-- The truthiness guards in calculatePaidAmount never change its value:
it is the plain sum of the four installments. -/
theorem calculatePaidAmount_eq_paymentsSum (o : Order) :
    calculatePaidAmount o = paymentsSum o := by
  unfold calculatePaidAmount paymentsSum
  by_cases h1 : o.payment_1 = 0 <;> by_cases h2 : o.payment_2 = 0 <;>
    by_cases h3 : o.payment_3 = 0 <;> by_cases h4 : o.payment_4 = 0 <;>
    simp [h1, h2, h3, h4]

/-- The payment_status written by handleSubmit, as a standalone function
of the inputs (the status does not depend on which installment slot was
assigned). -/
theorem handleSubmit_payment_status (o : Order) (ty : String) (amt : ℚ)
    (d : String) :
    (handleSubmit o ty amt d).payment_status =
      (if calculatePaidAmount o + amt ≥ o.total_topay then "Paid"
       else if calculatePaidAmount o + amt > 0 then
         (if ty = "deposit" ∨ calculatePaidAmount o + amt ≤ o.total_topay * 0.25
          then "Deposit Paid" else "Partial Payment")
       else o.payment_status) := by
  unfold handleSubmit
  by_cases hs1 : ty = "deposit" ∨ o.payment_1 = 0 <;>
    by_cases hs2 : ty = "final" ∨ o.payment_2 = 0 <;>
    by_cases hs3 : o.payment_3 = 0 <;>
    by_cases hge : calculatePaidAmount o + amt ≥ o.total_topay <;>
    by_cases hpos : calculatePaidAmount o + amt > 0 <;>
    by_cases hdep : ty = "deposit" ∨ calculatePaidAmount o + amt ≤ o.total_topay * 0.25 <;>
    simp [hs1, hs2, hs3, hge, hpos, hdep]

/-- A concrete order used to exercise the payment handlers: 100 due,
an 80 deposit already recorded. -/
def orderDeposit80 : Order :=
  { total_topay := 100, payment_1 := 80, payment_2 := 0, payment_3 := 0,
    payment_4 := 0, date_p1 := some "2024-01-01", date_p2 := none,
    date_p3 := none, date_p4 := none, payment_status := "Deposit Paid" }

/-- A concrete order used to exercise the payment handlers: 100 due,
nothing paid yet. -/
def orderUnpaid100 : Order :=
  { total_topay := 100, payment_1 := 0, payment_2 := 0, payment_3 := 0,
    payment_4 := 0, date_p1 := none, date_p2 := none, date_p3 := none,
    date_p4 := none, payment_status := "No Payment Received" }

/-- C2 counterexample: re-submitting the deposit installment of an order
that already has a deposit recorded overwrites payment_1, so the saved
row has a paid total of 30 out of 100 (positive and strictly below the
due total), yet the handler marks the order Paid, because the status is
computed from the previous installments plus the amount (80 + 30 = 110)
and not from the installments actually stored in the saved row. -/
theorem C2_counterexample :
    0 < paymentsSum (handleSubmit orderDeposit80 "deposit" 30 "2024-02-01") ∧
    paymentsSum (handleSubmit orderDeposit80 "deposit" 30 "2024-02-01") <
      (handleSubmit orderDeposit80 "deposit" 30 "2024-02-01").total_topay ∧
    (handleSubmit orderDeposit80 "deposit" 30 "2024-02-01").payment_status ≠
      "Deposit Paid" ∧
    (handleSubmit orderDeposit80 "deposit" 30 "2024-02-01").payment_status ≠
      "Partial Payment" := by
  norm_num [handleSubmit, paymentsSum, calculatePaidAmount, orderDeposit80]
  exact ⟨by decide, by decide⟩

/-- C2 (amended): the handler computes the new paid total as the sum of
the previously stored installments plus the submitted amount (it does not
subtract an installment that the submission overwrites); when that
computed total reaches total_topay the saved order has payment_status
Paid, and when it is positive but below total_topay the saved order has
payment_status Deposit Paid or Partial Payment. -/
theorem C2_payment_status_transition (o : Order) (ty : String) (amt : ℚ)
    (d : String) :
    (calculatePaidAmount o + amt ≥ o.total_topay →
      (handleSubmit o ty amt d).payment_status = "Paid") ∧
    (0 < calculatePaidAmount o + amt →
      calculatePaidAmount o + amt < o.total_topay →
      (handleSubmit o ty amt d).payment_status = "Deposit Paid" ∨
      (handleSubmit o ty amt d).payment_status = "Partial Payment") := by
  rw [handleSubmit_payment_status]
  constructor
  · intro hge
    simp [hge]
  · intro hpos hlt
    have hge : ¬ calculatePaidAmount o + amt ≥ o.total_topay := by linarith
    by_cases hdep : ty = "deposit" ∨ calculatePaidAmount o + amt ≤ o.total_topay * 0.25 <;>
      simp [hge, hpos, hdep]

/-- C2 witness: recording a 100 payment on an order with 100 due and
nothing paid reaches the due total, and the saved order is marked Paid. -/
theorem C2_payment_status_transition_witness :
    calculatePaidAmount orderUnpaid100 + 100 ≥ orderUnpaid100.total_topay ∧
    (handleSubmit orderUnpaid100 "final" 100 "2024-02-01").payment_status =
      "Paid" :=
  ⟨by norm_num [calculatePaidAmount, orderUnpaid100],
   (C2_payment_status_transition orderUnpaid100 "final" 100 "2024-02-01").1
     (by norm_num [calculatePaidAmount, orderUnpaid100])⟩

/-- C4 counterexample: the submit button is enabled for an amount of 150
on an order with 100 due and nothing paid, and the handler saves the
overpaying submission (writing 150 into payment_1 and marking the order
Paid) instead of rejecting it: no total-paid-versus-total-due check
exists in the handler. -/
theorem C4_counterexample :
    recordButtonDisabled false 150 = false ∧
    calculatePaidAmount orderUnpaid100 + 150 > orderUnpaid100.total_topay ∧
    handleSubmit orderUnpaid100 "deposit" 150 "2024-02-01" =
      { orderUnpaid100 with payment_1 := 150, date_p1 := some "2024-02-01",
                            payment_status := "Paid" } := by
  refine ⟨by norm_num [recordButtonDisabled], ?_, ?_⟩
  · norm_num [calculatePaidAmount, orderUnpaid100]
  · norm_num [handleSubmit, calculatePaidAmount, orderUnpaid100]

/-- C4 (amended): the record-payment form enforces no cap on the paid
total: the only client-side guard disables the submit button while a
submission is in flight or when the amount is not positive, and every
positive amount is saved, including one that makes the paid total exceed
total_topay, in which case the handler marks the order Paid rather than
rejecting the submission. -/
theorem C4_no_overpayment_check (o : Order) (ty : String) (amt : ℚ)
    (d : String) :
    (recordButtonDisabled false amt = false ↔ 0 < amt) ∧
    (calculatePaidAmount o + amt > o.total_topay →
      (handleSubmit o ty amt d).payment_status = "Paid") := by
  constructor
  · simp [recordButtonDisabled]
  · intro hgt
    have hge : calculatePaidAmount o + amt ≥ o.total_topay := le_of_lt hgt
    rw [handleSubmit_payment_status]
    simp [hge]

/-- C4 witness: the concrete overpaying submission of the counterexample
is accepted and marked Paid. -/
theorem C4_no_overpayment_check_witness :
    calculatePaidAmount orderUnpaid100 + 150 > orderUnpaid100.total_topay ∧
    (handleSubmit orderUnpaid100 "deposit" 150 "2024-02-01").payment_status =
      "Paid" :=
  ⟨by norm_num [calculatePaidAmount, orderUnpaid100],
   (C4_no_overpayment_check orderUnpaid100 "deposit" 150 "2024-02-01").2
     (by norm_num [calculatePaidAmount, orderUnpaid100])⟩

/-- C7: for an order with no first payment recorded, the form defaults to
the deposit payment type with the amount prefilled to 25 percent of
total_topay, and selecting the deposit type sets the amount to 25 percent
of total_topay. -/
theorem C7_deposit_prefill (o : Order) :
    (o.payment_1 = 0 →
      loadOrderDefaults o = ("deposit", 0.25 * o.total_topay)) ∧
    handlePaymentTypeChange o "deposit" = 0.25 * o.total_topay := by
  have hamt : (if o.total_topay ≠ 0 then o.total_topay * 0.25 else 0) =
      0.25 * o.total_topay := by
    by_cases ht : o.total_topay = 0
    · simp [ht]
    · simp [ht]; ring
  constructor
  · intro h1
    simp [loadOrderDefaults, h1, hamt]
  · simp [handlePaymentTypeChange, hamt]

/-- C7 witness: on the concrete unpaid order with 100 due, the prefilled
deposit amount is 25. -/
theorem C7_deposit_prefill_witness :
    orderUnpaid100.payment_1 = 0 ∧
    loadOrderDefaults orderUnpaid100 = ("deposit", 0.25 * orderUnpaid100.total_topay) :=
  ⟨rfl, (C7_deposit_prefill orderUnpaid100).1 rfl⟩

/-! ### Shopify order sync: src/app/api/sync/route.ts

processOrders (route lines 133 to 226) walks the list of mapped Shopify
orders and, per order: errors when shopify_id is falsy; otherwise (unless
force processing is on) looks the shopify_id up in the orders table,
updating the stored row when the incoming created_at is strictly newer,
skipping otherwise; an order with no stored row is inserted.  The orders
table is modelled as an in-memory list of rows with database-assigned row
ids, and the three fallible database calls take a failure oracle. -/

/-- A mapped Shopify order as handed to processOrders; payload stands for
the remaining mapped columns, which the sync control flow never reads.
created_at is a timestamp (the code compares Date values). -/
structure SyncOrder where
  shopify_id : Option String
  order_ref : Option String
  created_at : Int
  payload : Nat
  deriving Repr, DecidableEq

/-- A stored row of the orders table: a database-assigned primary key and
the order columns. -/
structure StoredOrderRow where
  rowId : Nat
  data : SyncOrder
  deriving Repr, DecidableEq

/-- The orders table: its rows and the next primary key to assign. -/
structure OrdersTable where
  rows : List StoredOrderRow
  nextRowId : Nat
  deriving Repr, DecidableEq

/-- Outcomes of the three fallible database calls made per order,
keyed by the incoming order. -/
structure SyncDbFailures where
  checkFail : SyncOrder → Option String
  updateFail : SyncOrder → Option String
  insertFail : SyncOrder → Option String

/-- The oracle under which every database call succeeds. -/
def noDbFailures : SyncDbFailures :=
  { checkFail := fun _ => none, updateFail := fun _ => none,
    insertFail := fun _ => none }

/-- JavaScript truthiness of an optional string column: null, undefined
and the empty string are falsy. -/
def truthyString : Option String → Option String
  | none => none
  | some s => if s = "" then none else some s

/-- order.order_ref or "unknown", as in the missing-id error message. -/
def orderRefOrUnknown (o : SyncOrder) : String :=
  match truthyString o.order_ref with
  | some r => r
  | none => "unknown"

/-- How one iteration of the processOrders loop classified its order. -/
inductive SyncOutcome where
  | inserted
  | skipped
  | updated
  | errored (msg : String)
  deriving Repr, DecidableEq

/-- Insert a row, assigning the next primary key. -/
def insertOrderRow (t : OrdersTable) (o : SyncOrder) : OrdersTable :=
  { rows := t.rows ++ [{ rowId := t.nextRowId, data := o }],
    nextRowId := t.nextRowId + 1 }

/-- Overwrite the columns of the row whose primary key is rid, as the
update call filtered with eq on id does. -/
def updateRows (t : OrdersTable) (rid : Nat) (o : SyncOrder) : OrdersTable :=
  { t with rows := t.rows.map fun r =>
      if r.rowId = rid then { r with data := o } else r }

/-- The duplicate-check block of the loop body (route lines 152 to 194):
none means fall through to the insert, some is the outcome of an early
continue. -/
def dupCheck (fl : SyncDbFailures) (t : OrdersTable) (o : SyncOrder)
    (sid : String) : Option (SyncOutcome × OrdersTable) :=
  match fl.checkFail o with
  | some m =>
    some (.errored ("Order " ++ sid ++
      ": Database error when checking for duplicates: " ++ m), t)
  | none =>
    match t.rows.filter (fun r => r.data.shopify_id = some sid) with
    | [] => none
    | e :: _ =>
      if e.data.created_at < o.created_at then
        match fl.updateFail o with
        | some m =>
          some (.errored ("Order " ++ sid ++
            ": Database error when updating: " ++ m), t)
        | none => some (.updated, updateRows t e.rowId o)
      else
        some (.skipped, t)

/-- The insert at the end of the loop body (route lines 196 to 211). -/
def insertPhase (fl : SyncDbFailures) (t : OrdersTable) (o : SyncOrder)
    (sid : String) : SyncOutcome × OrdersTable :=
  match fl.insertFail o with
  | some m =>
    (.errored ("Order " ++ sid ++
      ": Database error when inserting: " ++ m), t)
  | none => (.inserted, insertOrderRow t o)

/-- One iteration of the processOrders loop (route lines 140 to 217). -/
def processOne (fl : SyncDbFailures) (force : Bool) (t : OrdersTable)
    (o : SyncOrder) : SyncOutcome × OrdersTable :=
  match truthyString o.shopify_id with
  | none =>
    (.errored ("Order " ++ orderRefOrUnknown o ++ ": Missing shopify_id"), t)
  | some sid =>
    match (if force then none else dupCheck fl t o sid) with
    | some res => res
    | none => insertPhase fl t o sid

/-- The counters returned by processOrders. -/
structure SyncResult where
  newOrdersCount : Nat
  skippedOrdersCount : Nat
  errorOrdersCount : Nat
  updatedOrdersCount : Nat
  errorDetails : List String
  deriving Repr, DecidableEq

def emptySyncResult : SyncResult :=
  { newOrdersCount := 0, skippedOrdersCount := 0, errorOrdersCount := 0,
    updatedOrdersCount := 0, errorDetails := [] }

/-- Record the outcome of one iteration in the counters. -/
def addOutcome (out : SyncOutcome) (res : SyncResult) : SyncResult :=
  match out with
  | .inserted => { res with newOrdersCount := res.newOrdersCount + 1 }
  | .skipped => { res with skippedOrdersCount := res.skippedOrdersCount + 1 }
  | .updated => { res with updatedOrdersCount := res.updatedOrdersCount + 1 }
  | .errored m => { res with errorOrdersCount := res.errorOrdersCount + 1,
                             errorDetails := m :: res.errorDetails }

/-- processOrders: the loop over the fetched batch. -/
def processOrders (fl : SyncDbFailures) (force : Bool) :
    List SyncOrder → OrdersTable → SyncResult × OrdersTable
  | [], t => (emptySyncResult, t)
  | o :: rest, t =>
    let step := processOne fl force t o
    let next := processOrders fl force rest step.2
    (addOutcome step.1 next.1, next.2)

/-- Well-formedness of the orders table: primary keys are distinct and
below the next key to assign. -/
def wfOrdersTable (t : OrdersTable) : Prop :=
  (t.rows.map (fun r => r.rowId)).Nodup ∧ ∀ r ∈ t.rows, r.rowId < t.nextRowId

/-- Some stored row carries the given shopify id. -/
def hasShopifyId (t : OrdersTable) (sid : String) : Prop :=
  ∃ r ∈ t.rows, r.data.shopify_id = some sid

theorem truthyString_eq_some {os : Option String} {sid : String}
    (h : truthyString os = some sid) : os = some sid := by
  cases os with
  | none => exact absurd h (by simp [truthyString])
  | some s =>
    by_cases hs : s = ""
    · simp [truthyString, hs] at h
    · simpa [truthyString, hs] using h

theorem wf_insertOrderRow {t : OrdersTable} (h : wfOrdersTable t)
    (o : SyncOrder) : wfOrdersTable (insertOrderRow t o) := by
  obtain ⟨hnd, hlt⟩ := h
  constructor
  · simp only [insertOrderRow, List.map_append, List.map_cons, List.map_nil]
    rw [List.nodup_append]
    refine ⟨hnd, List.nodup_singleton _, ?_⟩
    intro a ha hb
    simp only [List.mem_singleton] at hb
    subst hb
    obtain ⟨r, hr, hra⟩ := List.mem_map.mp ha
    exact absurd (hra ▸ hlt r hr) (lt_irrefl _)
  · intro r hr
    simp only [insertOrderRow, List.mem_append, List.mem_singleton] at hr
    rcases hr with hr | hr
    · exact Nat.lt_succ_of_lt (hlt r hr)
    · subst hr; exact Nat.lt_succ_self _

theorem updateRows_rowIds (t : OrdersTable) (rid : Nat) (o : SyncOrder) :
    (updateRows t rid o).rows.map (fun r => r.rowId) =
      t.rows.map (fun r => r.rowId) := by
  simp only [updateRows, List.map_map]
  refine List.map_congr_left fun r _ => ?_
  simp only [Function.comp_apply]
  split <;> rfl

theorem wf_updateRows {t : OrdersTable} (h : wfOrdersTable t) (rid : Nat)
    (o : SyncOrder) : wfOrdersTable (updateRows t rid o) := by
  obtain ⟨hnd, hlt⟩ := h
  constructor
  · rw [updateRows_rowIds]; exact hnd
  · intro r hr
    simp only [updateRows, List.mem_map] at hr
    obtain ⟨a, ha, har⟩ := hr
    have : r.rowId = a.rowId := by
      subst har; split <;> rfl
    exact this ▸ hlt a ha

/-- Rows with the same primary key in a well-formed table are equal. -/
theorem row_eq_of_rowId_eq {t : OrdersTable} (h : wfOrdersTable t)
    {r e : StoredOrderRow} (hr : r ∈ t.rows) (he : e ∈ t.rows)
    (hid : r.rowId = e.rowId) : r = e :=
  List.inj_on_of_nodup_map h.1 hr he hid

theorem hasShopifyId_insertOrderRow {t : OrdersTable} {sid : String}
    (h : hasShopifyId t sid) (o : SyncOrder) :
    hasShopifyId (insertOrderRow t o) sid := by
  obtain ⟨r, hr, hrs⟩ := h
  exact ⟨r, by simp [insertOrderRow, List.mem_append, hr], hrs⟩

theorem hasShopifyId_updateRows {t : OrdersTable} {sid sid2 : String}
    {e : StoredOrderRow} {o : SyncOrder} (hwf : wfOrdersTable t)
    (he : e ∈ t.rows) (hes : e.data.shopify_id = some sid2)
    (hos : o.shopify_id = some sid2) (h : hasShopifyId t sid) :
    hasShopifyId (updateRows t e.rowId o) sid := by
  obtain ⟨r, hr, hrs⟩ := h
  by_cases hid : r.rowId = e.rowId
  · have hre : r = e := row_eq_of_rowId_eq hwf hr he hid
    subst hre
    have hsid : sid2 = sid := by
      rw [hes] at hrs; exact (Option.some.injEq _ _).mp hrs
    refine ⟨{ r with data := o }, ?_, ?_⟩
    · simp only [updateRows, List.mem_map]
      exact ⟨r, hr, by simp [hid]⟩
    · simp [hos, hsid]
  · refine ⟨r, ?_, hrs⟩
    simp only [updateRows, List.mem_map]
    exact ⟨r, hr, by simp [hid]⟩

/-- The first element of the duplicate lookup is a stored row carrying
the looked-up shopify id. -/
theorem filter_head_mem {t : OrdersTable} {sid : String}
    {e : StoredOrderRow} {rest : List StoredOrderRow}
    (h : t.rows.filter (fun r => r.data.shopify_id = some sid) = e :: rest) :
    e ∈ t.rows ∧ e.data.shopify_id = some sid := by
  have : e ∈ t.rows.filter (fun r => r.data.shopify_id = some sid) := by
    rw [h]; exact List.mem_cons_self _ _
  have := List.mem_filter.mp this
  exact ⟨this.1, by simpa using this.2⟩

theorem dupCheck_snd_cases (fl : SyncDbFailures) (t : OrdersTable)
    (o : SyncOrder) (sid : String) {res : SyncOutcome × OrdersTable}
    (h : dupCheck fl t o sid = some res) :
    res.2 = t ∨
    ∃ e rest,
      t.rows.filter (fun r => r.data.shopify_id = some sid) = e :: rest ∧
      res.2 = updateRows t e.rowId o := by
  cases hc : fl.checkFail o with
  | some m =>
    simp only [dupCheck, hc, Option.some.injEq] at h
    left; rw [← h]
  | none =>
    cases hfind : t.rows.filter (fun r => r.data.shopify_id = some sid) with
    | nil => simp [dupCheck, hc, hfind] at h
    | cons e rest =>
      by_cases hlt : e.data.created_at < o.created_at
      · cases hu : fl.updateFail o with
        | some m =>
          simp only [dupCheck, hc, hfind, if_pos hlt, hu,
            Option.some.injEq] at h
          left; rw [← h]
        | none =>
          simp only [dupCheck, hc, hfind, if_pos hlt, hu,
            Option.some.injEq] at h
          right; exact ⟨e, rest, rfl, by rw [← h]⟩
      · simp only [dupCheck, hc, hfind, if_neg hlt, Option.some.injEq] at h
        left; rw [← h]

theorem insertPhase_snd_cases (fl : SyncDbFailures) (t : OrdersTable)
    (o : SyncOrder) (sid : String) :
    (insertPhase fl t o sid).2 = t ∨
    (insertPhase fl t o sid).2 = insertOrderRow t o := by
  unfold insertPhase
  cases fl.insertFail o <;> simp

theorem processOne_snd_cases (fl : SyncDbFailures) (force : Bool)
    (t : OrdersTable) (o : SyncOrder) :
    (processOne fl force t o).2 = t ∨
    (processOne fl force t o).2 = insertOrderRow t o ∨
    ∃ sid e rest, truthyString o.shopify_id = some sid ∧
      o.shopify_id = some sid ∧
      t.rows.filter (fun r => r.data.shopify_id = some sid) = e :: rest ∧
      (processOne fl force t o).2 = updateRows t e.rowId o := by
  cases hsid : truthyString o.shopify_id with
  | none => left; simp [processOne, hsid]
  | some sid =>
    cases force with
    | true =>
      have hpo : processOne fl true t o = insertPhase fl t o sid := by
        simp [processOne, hsid]
      rw [hpo]
      rcases insertPhase_snd_cases fl t o sid with h | h
      · exact Or.inl h
      · exact Or.inr (Or.inl h)
    | false =>
      cases hd : dupCheck fl t o sid with
      | none =>
        have hpo : processOne fl false t o = insertPhase fl t o sid := by
          simp [processOne, hsid, hd]
        rw [hpo]
        rcases insertPhase_snd_cases fl t o sid with h | h
        · exact Or.inl h
        · exact Or.inr (Or.inl h)
      | some res =>
        have hpo : processOne fl false t o = res := by
          simp [processOne, hsid, hd]
        rcases dupCheck_snd_cases fl t o sid hd with h | ⟨e, rest, hfind, h⟩
        · exact Or.inl (by rw [hpo]; exact h)
        · exact Or.inr (Or.inr ⟨sid, e, rest, rfl, truthyString_eq_some hsid,
            hfind, by rw [hpo]; exact h⟩)

theorem wf_processOne {t : OrdersTable} (hwf : wfOrdersTable t)
    (fl : SyncDbFailures) (force : Bool) (o : SyncOrder) :
    wfOrdersTable (processOne fl force t o).2 := by
  rcases processOne_snd_cases fl force t o with h | h | ⟨sid, e, rest, _, _, _, h⟩
  · rw [h]; exact hwf
  · rw [h]; exact wf_insertOrderRow hwf o
  · rw [h]; exact wf_updateRows hwf e.rowId o

theorem hasShopifyId_processOne {t : OrdersTable} {sid : String}
    (hwf : wfOrdersTable t) (h : hasShopifyId t sid)
    (fl : SyncDbFailures) (force : Bool) (o : SyncOrder) :
    hasShopifyId (processOne fl force t o).2 sid := by
  rcases processOne_snd_cases fl force t o with
    hc | hc | ⟨sid2, e, rest, _, hos, hfind, hc⟩
  · rw [hc]; exact h
  · rw [hc]; exact hasShopifyId_insertOrderRow h o
  · rw [hc]
    obtain ⟨he, hes⟩ := filter_head_mem hfind
    exact hasShopifyId_updateRows hwf he hes hos h

theorem processOne_of_missing (fl : SyncDbFailures) (force : Bool)
    (t : OrdersTable) (o : SyncOrder)
    (h : truthyString o.shopify_id = none) :
    processOne fl force t o =
      (.errored ("Order " ++ orderRefOrUnknown o ++ ": Missing shopify_id"),
       t) := by
  simp [processOne, h]

theorem processOne_of_found (t : OrdersTable) (o : SyncOrder) {sid : String}
    {e : StoredOrderRow} {rest : List StoredOrderRow}
    (hsid : truthyString o.shopify_id = some sid)
    (hfind : t.rows.filter (fun r => r.data.shopify_id = some sid) = e :: rest) :
    processOne noDbFailures false t o =
      if e.data.created_at < o.created_at then
        (.updated, updateRows t e.rowId o)
      else (.skipped, t) := by
  by_cases hlt : e.data.created_at < o.created_at <;>
    simp [processOne, hsid, dupCheck, noDbFailures, hfind, hlt]

theorem processOne_of_notfound (t : OrdersTable) (o : SyncOrder)
    {sid : String} (hsid : truthyString o.shopify_id = some sid)
    (hfind : t.rows.filter (fun r => r.data.shopify_id = some sid) = []) :
    processOne noDbFailures false t o = (.inserted, insertOrderRow t o) := by
  simp [processOne, hsid, dupCheck, noDbFailures, hfind, insertPhase]

/-- After one successful, non-forced iteration, the processed shopify id
is present in the table. -/
theorem processOne_establishes (t : OrdersTable) {o : SyncOrder}
    {sid : String} (hsid : truthyString o.shopify_id = some sid) :
    hasShopifyId (processOne noDbFailures false t o).2 sid := by
  have hos : o.shopify_id = some sid := truthyString_eq_some hsid
  cases hfind : t.rows.filter (fun r => r.data.shopify_id = some sid) with
  | nil =>
    rw [processOne_of_notfound t o hsid hfind]
    exact ⟨{ rowId := t.nextRowId, data := o },
      by simp [insertOrderRow], hos⟩
  | cons e rest =>
    rw [processOne_of_found t o hsid hfind]
    obtain ⟨he, hes⟩ := filter_head_mem hfind
    by_cases hlt : e.data.created_at < o.created_at
    · rw [if_pos hlt]
      refine ⟨{ e with data := o }, ?_, hos⟩
      simp only [updateRows, List.mem_map]
      exact ⟨e, he, by simp⟩
    · rw [if_neg hlt]
      exact ⟨e, he, hes⟩

/-- A non-forced iteration whose shopify id is already present never
inserts. -/
theorem processOne_not_inserted {t : OrdersTable} {o : SyncOrder}
    {sid : String} (hsid : truthyString o.shopify_id = some sid)
    (h : hasShopifyId t sid) :
    (processOne noDbFailures false t o).1 ≠ .inserted := by
  cases hfind : t.rows.filter (fun r => r.data.shopify_id = some sid) with
  | nil =>
    obtain ⟨r, hr, hrs⟩ := h
    have hmem : r ∈ t.rows.filter (fun r => r.data.shopify_id = some sid) :=
      List.mem_filter.mpr ⟨hr, by simp [hrs]⟩
    rw [hfind] at hmem
    cases hmem
  | cons e rest =>
    rw [processOne_of_found t o hsid hfind]
    split <;> simp

theorem wf_processOrders (fl : SyncDbFailures) (force : Bool)
    (orders : List SyncOrder) {t : OrdersTable} (hwf : wfOrdersTable t) :
    wfOrdersTable (processOrders fl force orders t).2 := by
  induction orders generalizing t with
  | nil => exact hwf
  | cons a rest ih =>
    simp only [processOrders]
    exact ih (wf_processOne hwf fl force a)

theorem hasShopifyId_processOrders (fl : SyncDbFailures) (force : Bool)
    (orders : List SyncOrder) {t : OrdersTable} {sid : String}
    (hwf : wfOrdersTable t) (h : hasShopifyId t sid) :
    hasShopifyId (processOrders fl force orders t).2 sid := by
  induction orders generalizing t with
  | nil => exact h
  | cons a rest ih =>
    simp only [processOrders]
    exact ih (wf_processOne hwf fl force a)
      (hasShopifyId_processOne hwf h fl force a)

/-- After a full non-forced, failure-free run, every input order with a
truthy shopify id is present in the table. -/
theorem processOrders_covers (orders : List SyncOrder) {t : OrdersTable}
    (hwf : wfOrdersTable t) {o : SyncOrder} {sid : String} (ho : o ∈ orders)
    (hsid : truthyString o.shopify_id = some sid) :
    hasShopifyId (processOrders noDbFailures false orders t).2 sid := by
  induction orders generalizing t with
  | nil => cases ho
  | cons a rest ih =>
    rcases List.mem_cons.mp ho with rfl | ho2
    · simp only [processOrders]
      exact hasShopifyId_processOrders noDbFailures false rest
        (wf_processOne hwf noDbFailures false o)
        (processOne_establishes t hsid)
    · simp only [processOrders]
      exact ih (wf_processOne hwf noDbFailures false a) ho2

theorem addOutcome_newOrdersCount (out : SyncOutcome) (res : SyncResult) :
    (addOutcome out res).newOrdersCount =
      res.newOrdersCount + (if out = .inserted then 1 else 0) := by
  cases out <;> simp [addOutcome]

/-- A non-forced, failure-free run over orders whose shopify ids are all
already present inserts nothing. -/
theorem processOrders_no_new (orders : List SyncOrder) {t : OrdersTable}
    (hwf : wfOrdersTable t)
    (hcov : ∀ o ∈ orders, ∀ sid, truthyString o.shopify_id = some sid →
      hasShopifyId t sid) :
    (processOrders noDbFailures false orders t).1.newOrdersCount = 0 := by
  induction orders generalizing t with
  | nil => simp [processOrders, emptySyncResult]
  | cons a rest ih =>
    have hne : (processOne noDbFailures false t a).1 ≠ .inserted := by
      cases hta : truthyString a.shopify_id with
      | none =>
        rw [processOne_of_missing noDbFailures false t a hta]
        simp
      | some sid =>
        exact processOne_not_inserted hta
          (hcov a (List.mem_cons_self a rest) sid hta)
    have htail := ih (wf_processOne hwf noDbFailures false a)
      (fun o ho sid hs => hasShopifyId_processOne hwf
        (hcov o (List.mem_cons_of_mem a ho) sid hs) noDbFailures false a)
    simp only [processOrders, addOutcome_newOrdersCount, if_neg hne]
    omega

/-- A sample mapped Shopify order. -/
def syncOrderA : SyncOrder :=
  { shopify_id := some "5001", order_ref := some "1001", created_at := 10,
    payload := 0 }

/-- C1: with force processing disabled, an incoming order whose
shopify_id already has a stored row whose created_at is at least the
incoming created_at is skipped and the table is left unchanged; and for
any table with well-formed primary keys, a second non-forced run of
processOrders over the same unchanged order set inserts zero new rows. -/
theorem C1_sync_idempotent (orders : List SyncOrder) (t : OrdersTable)
    (hwf : wfOrdersTable t) :
    (∀ (o : SyncOrder) (sid : String) (e : StoredOrderRow)
        (rest : List StoredOrderRow),
        truthyString o.shopify_id = some sid →
        t.rows.filter (fun r => r.data.shopify_id = some sid) = e :: rest →
        o.created_at ≤ e.data.created_at →
        processOne noDbFailures false t o = (.skipped, t)) ∧
    (processOrders noDbFailures false orders
        (processOrders noDbFailures false orders t).2).1.newOrdersCount
      = 0 := by
  constructor
  · intro o sid e rest hsid hfind hle
    rw [processOne_of_found t o hsid hfind, if_neg (not_lt.mpr hle)]
  · exact processOrders_no_new orders
      (wf_processOrders noDbFailures false orders hwf)
      (fun o ho sid hs => processOrders_covers orders hwf ho hs)

/-- C1 witness: starting from the empty table, syncing one concrete
Shopify order twice inserts nothing on the second run. -/
theorem C1_sync_idempotent_witness :
    wfOrdersTable { rows := [], nextRowId := 0 } ∧
    (processOrders noDbFailures false [syncOrderA]
        (processOrders noDbFailures false [syncOrderA]
          { rows := [], nextRowId := 0 }).2).1.newOrdersCount = 0 := by
  have hwf0 : wfOrdersTable { rows := [], nextRowId := 0 } :=
    ⟨List.nodup_nil, by simp⟩
  exact ⟨hwf0, (C1_sync_idempotent [syncOrderA] _ hwf0).2⟩

/-- C8: processOrders classifies every input order into exactly one
outcome: the four counters sum to the number of input orders, and the
error-detail list has one entry per counted error, for every failure
oracle and force flag. -/
theorem C8_counts_partition (fl : SyncDbFailures) (force : Bool)
    (orders : List SyncOrder) (t : OrdersTable) :
    ((processOrders fl force orders t).1).newOrdersCount +
        ((processOrders fl force orders t).1).skippedOrdersCount +
        ((processOrders fl force orders t).1).updatedOrdersCount +
        ((processOrders fl force orders t).1).errorOrdersCount =
      orders.length ∧
    ((processOrders fl force orders t).1).errorDetails.length =
      ((processOrders fl force orders t).1).errorOrdersCount := by
  induction orders generalizing t with
  | nil => simp [processOrders, emptySyncResult]
  | cons o rest ih =>
    have h := ih (processOne fl force t o).2
    cases hout : (processOne fl force t o).1 <;>
      simp only [processOrders, addOutcome, hout, List.length_cons] <;>
      omega

/-! ### Shopify API client retry helper: src/lib/shopify-api.ts -/

/-- Errors thrown inside retryOperation: a ShopifyAPIError carries an
HTTP status and an optional Retry-After value in seconds; any other
thrown value is opaque. -/
inductive ShopifyErr where
  | api (status : Nat) (retryAfter : Option Nat) (msg : String)
  | other (msg : String)
  deriving Repr, DecidableEq

/-- lib line 25. -/
def RETRY_ATTEMPTS : Nat := 3

/-- lib line 26, in milliseconds. -/
def RETRY_DELAY : Nat := 1000

/-- lib line 65: error.retryAfter (seconds, converted to milliseconds)
when truthy, the current fallback delay otherwise. -/
def jsRetryDelay (ra : Option Nat) (delay : Nat) : Nat :=
  match ra with
  | some r => if r = 0 then delay else r * 1000
  | none => delay

/-- retryOperation (lib lines 50 to 83).  The operation is modelled as a
function from the attempt index to the outcome of that attempt; the
result is paired with the list of sleeps performed before each retry, in
milliseconds, so the number of attempts made is the sleep count plus
one.  A ShopifyAPIError with status 401, or an exhausted attempt budget,
stops the recursion immediately; a truthy Retry-After on the error
overrides the fallback delay, which doubles on each recursive call. -/
def retryOperation {α : Type} (op : Nat → Except ShopifyErr α) (idx : Nat)
    (attempts : Nat) (delay : Nat) : Except ShopifyErr α × List Nat :=
  match op idx with
  | .ok v => (.ok v, [])
  | .error e =>
    match e with
    | .api st ra m =>
      if h : st = 401 ∨ attempts ≤ 1 then (.error (.api st ra m), [])
      else
        let retryDelay := jsRetryDelay ra delay
        let next := retryOperation op (idx + 1) (attempts - 1) (delay * 2)
        (next.1, retryDelay :: next.2)
    | .other m =>
      if h : attempts ≤ 1 then (.error (.other m), [])
      else
        let next := retryOperation op (idx + 1) (attempts - 1) (delay * 2)
        (next.1, delay :: next.2)
termination_by attempts
decreasing_by
  · omega
  · omega

/-- The sleep list is one shorter than the attempt budget (so the number
of attempts made never exceeds the budget). -/
theorem retryOperation_sleeps_le {α : Type}
    (op : Nat → Except ShopifyErr α) :
    ∀ (a idx d : Nat), (retryOperation op idx a d).2.length ≤ a - 1 := by
  intro a
  induction a using Nat.strong_induction_on with
  | _ a ih =>
    intro idx d
    unfold retryOperation
    cases op idx with
    | ok v => simp
    | error e =>
      cases e with
      | api st ra m =>
        by_cases h : st = 401 ∨ a ≤ 1
        · simp [h]
        · have ha : a - 1 < a := by omega
          have hrec := ih (a - 1) ha (idx + 1) (d * 2)
          simp only [dif_neg h, List.length_cons]
          omega
      | other m =>
        by_cases h : a ≤ 1
        · simp [h]
        · have ha : a - 1 < a := by omega
          have hrec := ih (a - 1) ha (idx + 1) (d * 2)
          simp only [dif_neg h, List.length_cons]
          omega

/-- When no error carries a truthy Retry-After, the sleep list is the
fallback delay doubling on each successive retry: d, 2d, 4d, and so on. -/
theorem retryOperation_fallback_doubling {α : Type}
    (op : Nat → Except ShopifyErr α)
    (hra : ∀ j st ra m, op j = .error (.api st ra m) →
      ra = none ∨ ra = some 0) :
    ∀ (a idx d : Nat), ∃ n,
      (retryOperation op idx a d).2 =
        (List.range n).map (fun i => d * 2 ^ i) := by
  intro a
  induction a using Nat.strong_induction_on with
  | _ a ih =>
    intro idx d
    unfold retryOperation
    cases hop : op idx with
    | ok v => exact ⟨0, by simp⟩
    | error e =>
      cases e with
      | api st ra m =>
        by_cases h : st = 401 ∨ a ≤ 1
        · exact ⟨0, by simp [h]⟩
        · have ha : a - 1 < a := by omega
          obtain ⟨n, hn⟩ := ih (a - 1) ha (idx + 1) (d * 2)
          have hfall : jsRetryDelay ra d = d := by
            rcases hra idx st ra m hop with h0 | h0 <;> simp [jsRetryDelay, h0]
          refine ⟨n + 1, ?_⟩
          simp only [dif_neg h, hfall, hn]
          rw [List.range_succ_eq_map, List.map_cons, List.map_map]
          refine congrArg₂ _ (by simp) ?_
          refine List.map_congr_left fun i _ => ?_
          simp only [Function.comp_apply, pow_succ]
          ring
      | other m =>
        by_cases h : a ≤ 1
        · exact ⟨0, by simp [h]⟩
        · have ha : a - 1 < a := by omega
          obtain ⟨n, hn⟩ := ih (a - 1) ha (idx + 1) (d * 2)
          refine ⟨n + 1, ?_⟩
          simp only [dif_neg h, hn]
          rw [List.range_succ_eq_map, List.map_cons, List.map_map]
          refine congrArg₂ _ (by simp) ?_
          refine List.map_congr_left fun i _ => ?_
          simp only [Function.comp_apply, pow_succ]
          ring

/-- An attempt that fails with HTTP 429 and attempts left is retried:
the result is that of the recursive call with a decremented budget and a
doubled fallback delay, and one backoff sleep is recorded (Retry-After
when truthy, the fallback delay otherwise). -/
theorem retryOperation_429_retries {α : Type}
    (op : Nat → Except ShopifyErr α) (idx a d : Nat) (ra : Option Nat)
    (m : String) (hop : op idx = .error (.api 429 ra m)) (ha : 2 ≤ a) :
    retryOperation op idx a d =
      ((retryOperation op (idx + 1) (a - 1) (d * 2)).1,
        jsRetryDelay ra d ::
          (retryOperation op (idx + 1) (a - 1) (d * 2)).2) := by
  have h : ¬ ((429 : Nat) = 401 ∨ a ≤ 1) := by omega
  conv_lhs => unfold retryOperation
  simp only [hop, dif_neg h]

/-- An attempt failing with HTTP 401 is never retried: the error is
rethrown immediately with no sleeps, whatever the remaining budget. -/
theorem retryOperation_401_stops {α : Type}
    (op : Nat → Except ShopifyErr α) (idx a d : Nat) (ra : Option Nat)
    (m : String) (hop : op idx = .error (.api 401 ra m)) :
    retryOperation op idx a d = (.error (.api 401 ra m), []) := by
  unfold retryOperation
  simp [hop]

/-- C5: retryOperation called with the RETRY_ATTEMPTS budget makes at
most RETRY_ATTEMPTS attempts in total (the sleeps between attempts
number at most RETRY_ATTEMPTS - 1); a 429 failure with budget left is
retried after a backoff sleep; with no truthy Retry-After the fallback
delays double on each successive retry; and a 401 failure is never
retried. -/
theorem C5_retry_bounded_backoff {α : Type} :
    (∀ (op : Nat → Except ShopifyErr α) (idx d : Nat),
      (retryOperation op idx RETRY_ATTEMPTS d).2.length + 1 ≤
        RETRY_ATTEMPTS) ∧
    (∀ (op : Nat → Except ShopifyErr α) (idx a d : Nat) (ra : Option Nat)
        (m : String), op idx = .error (.api 429 ra m) → 2 ≤ a →
      retryOperation op idx a d =
        ((retryOperation op (idx + 1) (a - 1) (d * 2)).1,
          jsRetryDelay ra d ::
            (retryOperation op (idx + 1) (a - 1) (d * 2)).2)) ∧
    (∀ (op : Nat → Except ShopifyErr α) (idx a d : Nat),
      (∀ j st ra m, op j = .error (.api st ra m) →
        ra = none ∨ ra = some 0) →
      ∃ n, (retryOperation op idx a d).2 =
        (List.range n).map (fun i => d * 2 ^ i)) ∧
    (∀ (op : Nat → Except ShopifyErr α) (idx a d : Nat) (ra : Option Nat)
        (m : String), op idx = .error (.api 401 ra m) →
      retryOperation op idx a d = (.error (.api 401 ra m), [])) := by
  refine ⟨?_, ?_, ?_, ?_⟩
  · intro op idx d
    have := retryOperation_sleeps_le op RETRY_ATTEMPTS idx d
    simp only [RETRY_ATTEMPTS] at this ⊢
    omega
  · exact fun op idx a d ra m hop ha =>
      retryOperation_429_retries op idx a d ra m hop ha
  · exact fun op idx a d hra =>
      retryOperation_fallback_doubling op hra a idx d
  · exact fun op idx a d ra m hop =>
      retryOperation_401_stops op idx a d ra m hop

/-- C5 witness: an operation that always rate-limits with status 429 and
no Retry-After, run with the default budget of 3 and delay 1000, is
retried with sleeps 1000 and 2000 and finally rethrows the error. -/
theorem C5_retry_bounded_backoff_witness :
    (fun _ => Except.error (ShopifyErr.api 429 none "Rate limited")
      : Nat → Except ShopifyErr Nat) 0 =
        .error (.api 429 none "Rate limited") ∧
    (2 : Nat) ≤ 3 ∧
    retryOperation
        (fun _ => Except.error (ShopifyErr.api 429 none "Rate limited")
          : Nat → Except ShopifyErr Nat) 0 3 1000 =
      ((retryOperation
          (fun _ => Except.error (ShopifyErr.api 429 none "Rate limited")
            : Nat → Except ShopifyErr Nat) 1 2 2000).1,
        1000 :: (retryOperation
          (fun _ => Except.error (ShopifyErr.api 429 none "Rate limited")
            : Nat → Except ShopifyErr Nat) 1 2 2000).2) :=
  ⟨rfl, by decide, by
    have h := (C5_retry_bounded_backoff (α := Nat)).2.1
      (fun _ => Except.error (ShopifyErr.api 429 none "Rate limited"))
      0 3 1000 none "Rate limited" rfl (by decide)
    simpa [jsRetryDelay] using h⟩

/-! ### Orders REST handlers: src/app/api/orders/route.ts -/

/-- The columns of an orders row that the list endpoint filters on,
plus an opaque remainder. -/
structure ApiOrderRow where
  id : Nat
  order_ref : String
  buyer : String
  ship_status : String
  payment_status : String
  rest : Nat
  deriving Repr, DecidableEq

/-- A request body for the create endpoint: an orders row without the
generated id. -/
structure NewOrder where
  order_ref : String
  buyer : String
  ship_status : String
  payment_status : String
  rest : Nat
  deriving Repr, DecidableEq

/-- The orders table as seen by the REST handlers. -/
structure ApiOrdersTable where
  rows : List ApiOrderRow
  nextId : Nat
  deriving Repr, DecidableEq

/-- Generated ids of existing rows stay below the next id to assign. -/
def wfApiOrdersTable (t : ApiOrdersTable) : Prop :=
  ∀ r ∈ t.rows, r.id < t.nextId

/-- A response of the create endpoint: the inserted row as JSON on
success, an error body with an HTTP status otherwise. -/
inductive PostResult where
  | ok (row : ApiOrderRow)
  | err (status : Nat) (msg : String)
  deriving Repr, DecidableEq

/-- The row materialized by the insert: the body columns plus the
generated id. -/
def insertedRow (body : NewOrder) (nid : Nat) : ApiOrderRow :=
  { id := nid, order_ref := body.order_ref, buyer := body.buyer,
    ship_status := body.ship_status,
    payment_status := body.payment_status, rest := body.rest }

/-- POST /api/orders (route lines 110 to 135): a single insert with
select().single(); on a database error the error message is returned
with status 400 and nothing is inserted. -/
def ordersPOST (body : NewOrder) (insertError : Option String)
    (t : ApiOrdersTable) : PostResult × ApiOrdersTable :=
  match insertError with
  | some msg => (.err 400 msg, t)
  | none =>
    let row := insertedRow body t.nextId
    (.ok row, { rows := t.rows ++ [row], nextId := t.nextId + 1 })

/-- Lookup of a row by id (the retrievability half of the create
property). -/
def findOrderById (t : ApiOrdersTable) (i : Nat) : Option ApiOrderRow :=
  t.rows.find? (fun r => r.id = i)

/-- One disjunct of the PostgREST or() clause built by GET /api/orders
(route lines 26 to 45).  The search parameter contributes two ilike
disjuncts in a single pushed string; the comma join of or() flattens
them into the same top-level disjunction. -/
inductive OrderFilterCond where
  | searchOrderRef (s : String)
  | searchBuyer (s : String)
  | shipStatusEq (v : String)
  | paymentStatusEq (v : String)
  deriving Repr, DecidableEq

/-- ilike with percent wildcards on both sides: case-insensitive
substring containment. -/
def ilikeContains (hay pat : String) : Bool :=
  decide (List.IsInfix pat.toLower.data hay.toLower.data)

/-- Whether a row satisfies one filter disjunct. -/
def condMatches (r : ApiOrderRow) : OrderFilterCond → Bool
  | .searchOrderRef s => ilikeContains r.order_ref s
  | .searchBuyer s => ilikeContains r.buyer s
  | .shipStatusEq v => r.ship_status == v
  | .paymentStatusEq v => r.payment_status == v

/-- The filterConditions list built from the request parameters: the
search parameter defaults to the empty string, the status parameters are
nullable, and each is added only when truthy. -/
def buildFilterConditions (search : String)
    (shipStatus paymentStatus : Option String) : List OrderFilterCond :=
  (if search ≠ "" then
    [OrderFilterCond.searchOrderRef search, OrderFilterCond.searchBuyer search]
   else []) ++
  (match truthyString shipStatus with
   | some v => [OrderFilterCond.shipStatusEq v]
   | none => []) ++
  (match truthyString paymentStatus with
   | some v => [OrderFilterCond.paymentStatusEq v]
   | none => [])

/-- The or() application (route lines 43 to 45): with no conditions the
query is unfiltered, otherwise a row is kept when it satisfies at least
one condition of the comma-joined disjunction. -/
def applyOrFilter (conds : List OrderFilterCond)
    (rows : List ApiOrderRow) : List ApiOrderRow :=
  if conds.isEmpty then rows
  else rows.filter (fun r => conds.any (fun c => condMatches r c))

/-- The sort-column whitelist (route line 48). -/
def validColumns : List String :=
  ["order_ref", "order_date", "buyer", "total_topay", "payment_status",
   "ship_status"]

/-- JavaScript String.prototype.split at commas, on the character
list. -/
def splitCharsOnComma : List Char → List (List Char)
  | [] => [[]]
  | c :: cs =>
    let r := splitCharsOnComma cs
    if c = ',' then [] :: r
    else
      match r with
      | [] => [[c]]
      | h :: tl => (c :: h) :: tl

/-- JavaScript String.prototype.split with separator comma. -/
def splitOnComma (s : String) : List String :=
  (splitCharsOnComma s.data).map (fun l => String.mk l)

/-- sortOrders[index] || order: an out-of-range index yields undefined
and an empty entry is falsy; both fall back to the whole order
parameter. -/
def sortOrderAt (sortOrders : List String) (order : String) (i : Nat) :
    String :=
  match sortOrders.get? i with
  | some so => if so = "" then order else so
  | none => order

/-- The forEach over orderByFields (route lines 58 to 61), pairing each
field with whether its sort direction is ascending. -/
def buildSortSpecAux (sortOrders : List String) (order : String) :
    Nat → List String → List (String × Bool)
  | _, [] => []
  | i, f :: fs =>
    (f, sortOrderAt sortOrders order i == "asc") ::
      buildSortSpecAux sortOrders order (i + 1) fs

/-- The multi-column sort built by GET /api/orders (route lines 53 to
61). -/
def buildSortSpec (orderBy order : String) : List (String × Bool) :=
  buildSortSpecAux (splitOnComma order) order 0 (splitOnComma orderBy)

/-- The sort handling of GET /api/orders: the whitelist check at route
lines 47 to 51 runs before the split at line 54 and throws on a
non-whitelisted orderBy value. -/
def ordersGETSort (orderBy order : String) :
    Except String (List (String × Bool)) :=
  if ¬ orderBy ∈ validColumns then Except.error "Invalid sort column"
  else Except.ok (buildSortSpec orderBy order)

/-- The catch-all of GET /api/orders (route lines 100 to 106): a thrown
sort-validation error surfaces as the 500 Internal server error
response; none means the handler proceeds past sorting. -/
def ordersGETSortResponse (orderBy order : String) :
    Option (Nat × String) :=
  match ordersGETSort orderBy order with
  | .error _ => some (500, "Internal server error")
  | .ok _ => none

/-- A string contains a comma. -/
def hasComma (s : String) : Prop := ',' ∈ s.data

instance : DecidablePred hasComma := fun s =>
  inferInstanceAs (Decidable (',' ∈ s.data))

/-- C6: posting a valid order body with no database error appends
exactly one row, the response carries that row with its generated id,
and the row is retrievable by that id; with a database error the table
is unchanged and the response is the message with status 400. -/
theorem C6_create_order (body : NewOrder) (t : ApiOrdersTable)
    (hwf : wfApiOrdersTable t) :
    (∃ row, (ordersPOST body none t).1 = .ok row ∧
      (ordersPOST body none t).2.rows = t.rows ++ [row] ∧
      (ordersPOST body none t).2.rows.length = t.rows.length + 1 ∧
      findOrderById (ordersPOST body none t).2 row.id = some row) ∧
    (∀ msg, (ordersPOST body (some msg) t).1 = .err 400 msg ∧
      (ordersPOST body (some msg) t).2 = t) := by
  constructor
  · refine ⟨insertedRow body t.nextId, rfl, rfl, by simp [ordersPOST], ?_⟩
    unfold findOrderById ordersPOST
    rw [List.find?_append]
    have hnone : t.rows.find? (fun r => r.id = (insertedRow body t.nextId).id)
        = none := by
      rw [List.find?_eq_none]
      intro r hr
      simp only [decide_eq_true_eq, insertedRow]
      exact fun he => absurd (he ▸ hwf r hr) (lt_irrefl _)
    rw [hnone]
    simp [List.find?]
  · exact fun msg => ⟨rfl, rfl⟩

/-- A sample request body for the create endpoint. -/
def newOrderA : NewOrder :=
  { order_ref := "1001", buyer := "Alice", ship_status := "Not Shipped",
    payment_status := "No Payment Received", rest := 0 }

/-- C6 witness: creating a concrete order in the empty table inserts one
retrievable row. -/
theorem C6_create_order_witness :
    wfApiOrdersTable { rows := [], nextId := 1 } ∧
    (∃ row, (ordersPOST newOrderA none { rows := [], nextId := 1 }).1 =
        .ok row ∧
      (ordersPOST newOrderA none { rows := [], nextId := 1 }).2.rows =
        ([] : List ApiOrderRow) ++ [row] ∧
      (ordersPOST newOrderA none { rows := [], nextId := 1 }).2.rows.length =
        ([] : List ApiOrderRow).length + 1 ∧
      findOrderById (ordersPOST newOrderA none { rows := [], nextId := 1 }).2
        row.id = some row) := by
  have hwf : wfApiOrdersTable { rows := [], nextId := 1 } := by
    intro r hr; cases hr
  exact ⟨hwf, (C6_create_order newOrderA { rows := [], nextId := 1 } hwf).1⟩

theorem truthyString_of_ne_empty {v : String} (hv : v ≠ "") :
    truthyString (some v) = some v := by
  simp [truthyString, hv]

/-- C9: when a free-text search and a ship_status (or payment_status)
filter are both supplied, the built conditions are one top-level or()
disjunction: a row is in the filtered result exactly when it matches
the search on order_ref or buyer, or has the requested status, not only
when it satisfies both. -/
theorem C9_or_filter_disjunctive (search v : String)
    (rows : List ApiOrderRow) (r : ApiOrderRow)
    (hsearch : search ≠ "") (hv : v ≠ "") (hr : r ∈ rows) :
    (r ∈ applyOrFilter (buildFilterConditions search (some v) none) rows ↔
      ilikeContains r.order_ref search = true ∨
      ilikeContains r.buyer search = true ∨
      r.ship_status = v) ∧
    (r ∈ applyOrFilter (buildFilterConditions search none (some v)) rows ↔
      ilikeContains r.order_ref search = true ∨
      ilikeContains r.buyer search = true ∨
      r.payment_status = v) := by
  have htv := truthyString_of_ne_empty hv
  constructor <;>
    simp [applyOrFilter, buildFilterConditions, hsearch, hv, truthyString,
      List.mem_filter, hr, condMatches, beq_iff_eq]

/-- A sample stored orders row. -/
def apiOrderRowA : ApiOrderRow :=
  { id := 1, order_ref := "ref-1", buyer := "Alice",
    ship_status := "Shipped", payment_status := "Paid", rest := 0 }

/-- C9 witness: a row whose ship_status matches the filter is included
even though the search text matches neither order_ref nor buyer. -/
theorem C9_or_filter_disjunctive_witness :
    ("zzz" : String) ≠ "" ∧ ("Shipped" : String) ≠ "" ∧
    apiOrderRowA ∈ [apiOrderRowA] ∧
    apiOrderRowA ∈ applyOrFilter
      (buildFilterConditions "zzz" (some "Shipped") none) [apiOrderRowA] :=
  ⟨by decide, by decide, List.mem_singleton.mpr rfl,
    ((C9_or_filter_disjunctive "zzz" "Shipped" [apiOrderRowA] apiOrderRowA
        (by decide) (by decide) (List.mem_singleton.mpr rfl)).1).mpr
      (Or.inr (Or.inr rfl))⟩

theorem splitCharsOnComma_no_comma (l : List Char) (h : ',' ∉ l) :
    splitCharsOnComma l = [l] := by
  induction l with
  | nil => rfl
  | cons c cs ih =>
    have hc : ¬ c = ',' := fun e => h (e ▸ List.mem_cons_self _ _)
    have hcs : ',' ∉ cs := fun m => h (List.mem_cons_of_mem _ m)
    simp only [splitCharsOnComma, ih hcs, if_neg hc]

theorem splitOnComma_no_comma (s : String) (h : ¬ hasComma s) :
    splitOnComma s = [s] := by
  unfold splitOnComma
  rw [splitCharsOnComma_no_comma s.data h]
  cases s with
  | mk l => rfl

/-- No whitelisted sort column contains a comma. -/
theorem validColumns_no_comma : ∀ s ∈ validColumns, ¬ hasComma s := by
  decide

/-- C10: the orderBy whitelist check runs before the comma split, so any
orderBy containing a comma throws Invalid sort column and the handler
answers 500 Internal server error; the multi-column sort code is reached
only with a single whitelisted column, for which it produces exactly one
sort pair. -/
theorem C10_sort_whitelist_before_split (orderBy order : String) :
    (hasComma orderBy →
      ordersGETSort orderBy order = .error "Invalid sort column" ∧
      ordersGETSortResponse orderBy order =
        some (500, "Internal server error")) ∧
    (∀ spec, ordersGETSort orderBy order = .ok spec →
      orderBy ∈ validColumns ∧ ¬ hasComma orderBy ∧
      spec = [(orderBy,
        sortOrderAt (splitOnComma order) order 0 == "asc")]) := by
  constructor
  · intro hc
    have hnv : ¬ orderBy ∈ validColumns :=
      fun hm => validColumns_no_comma orderBy hm hc
    constructor
    · simp [ordersGETSort, hnv]
    · simp [ordersGETSortResponse, ordersGETSort, hnv]
  · intro spec hok
    by_cases hm : orderBy ∈ validColumns
    · have hnc : ¬ hasComma orderBy := validColumns_no_comma orderBy hm
      refine ⟨hm, hnc, ?_⟩
      rw [ordersGETSort, if_neg (not_not_intro hm)] at hok
      cases hok
      rw [buildSortSpec, splitOnComma_no_comma orderBy hnc]
      rfl
    · rw [ordersGETSort, if_pos hm] at hok
      cases hok

/-- C10 witness: the two-column orderBy value order_ref,order_date is
rejected with the 500 Internal server error response. -/
theorem C10_sort_whitelist_before_split_witness :
    hasComma "order_ref,order_date" ∧
    ordersGETSort "order_ref,order_date" "desc" =
      .error "Invalid sort column" ∧
    ordersGETSortResponse "order_ref,order_date" "desc" =
      some (500, "Internal server error") :=
  ⟨by decide,
    ((C10_sort_whitelist_before_split "order_ref,order_date" "desc").1
      (by decide)).1,
    ((C10_sort_whitelist_before_split "order_ref,order_date" "desc").1
      (by decide)).2⟩

/-! ### Block and Buyer DELETE handlers: src/app/api/blocks/route.ts and
the buyers route -/

/-- An orders row as seen by the linked-order checks: its foreign keys
to blocks and buyers. -/
structure LinkedOrderRow where
  id : Nat
  block_id : Option Nat
  buyer_id : Option Nat
  deriving Repr, DecidableEq

/-- A blocks row: its id and an opaque remainder. -/
structure BlockRow where
  id : Nat
  rest : Nat
  deriving Repr, DecidableEq

/-- A buyers row: its id and an opaque remainder. -/
structure BuyerRow where
  id : Nat
  rest : Nat
  deriving Repr, DecidableEq

/-- The tables touched by the two DELETE handlers. -/
structure RefTables where
  orders : List LinkedOrderRow
  blocks : List BlockRow
  buyers : List BuyerRow
  deriving Repr, DecidableEq

/-- An HTTP status plus optional JSON error body. -/
structure ApiResponse where
  status : Nat
  error : Option String
  deriving Repr, DecidableEq

/-- DELETE /api/blocks (blocks route lines 136 to 189): reject when the
id is missing; select linked orders by block_id with limit 1; reject
with 400 when any exists; otherwise delete the blocks row by id and
answer 204. -/
def blocksDELETE (idParam : Option Nat) (db : RefTables) :
    ApiResponse × RefTables :=
  match idParam with
  | none => ({ status := 400, error := some "Block ID is required" }, db)
  | some i =>
    let linkedOrders :=
      (db.orders.filter (fun o => o.block_id = some i)).take 1
    if linkedOrders.length > 0 then
      ({ status := 400,
         error := some "Cannot delete block with linked orders" }, db)
    else
      ({ status := 204, error := none },
       { db with blocks := db.blocks.filter (fun b => ¬ b.id = i) })

/-- DELETE /api/buyers (buyers route lines 183 to 236), identical shape
keyed on buyer_id. -/
def buyersDELETE (idParam : Option Nat) (db : RefTables) :
    ApiResponse × RefTables :=
  match idParam with
  | none => ({ status := 400, error := some "Buyer ID is required" }, db)
  | some i =>
    let linkedOrders :=
      (db.orders.filter (fun o => o.buyer_id = some i)).take 1
    if linkedOrders.length > 0 then
      ({ status := 400,
         error := some "Cannot delete buyer with linked orders" }, db)
    else
      ({ status := 204, error := none },
       { db with buyers := db.buyers.filter (fun b => ¬ b.id = i) })

theorem linked_take_pos_iff {β : Type} (l : List β) (p : β → Bool) :
    0 < ((l.filter p).take 1).length ↔ ∃ o ∈ l, p o = true := by
  rw [List.length_take]
  constructor
  · intro h
    have hlen : 0 < (l.filter p).length := by omega
    obtain ⟨o, ho⟩ := List.exists_mem_of_length_pos hlen
    exact ⟨o, (List.mem_filter.mp ho).1, (List.mem_filter.mp ho).2⟩
  · rintro ⟨o, ho, hp⟩
    have hm : o ∈ l.filter p := List.mem_filter.mpr ⟨ho, hp⟩
    have := List.length_pos.mpr (List.ne_nil_of_mem hm)
    omega

/-- C3: the DELETE handler checks the orders table first: with at least
one order linked by block_id (resp. buyer_id) it answers 400 with the
cannot-delete error and leaves all tables unchanged; with no linked
order it answers 204, deletes exactly the rows with that id from the
blocks (resp. buyers) table, and leaves the other tables unchanged. -/
theorem C3_delete_linked_guard (i : Nat) (db : RefTables) :
    ((∃ o ∈ db.orders, o.block_id = some i) →
      (blocksDELETE (some i) db).1.status = 400 ∧
      (blocksDELETE (some i) db).1.error =
        some "Cannot delete block with linked orders" ∧
      (blocksDELETE (some i) db).2 = db) ∧
    ((¬ ∃ o ∈ db.orders, o.block_id = some i) →
      (blocksDELETE (some i) db).1.status = 204 ∧
      (blocksDELETE (some i) db).2.blocks =
        db.blocks.filter (fun b => ¬ b.id = i) ∧
      (∀ b ∈ (blocksDELETE (some i) db).2.blocks, b.id ≠ i) ∧
      (blocksDELETE (some i) db).2.orders = db.orders ∧
      (blocksDELETE (some i) db).2.buyers = db.buyers) ∧
    ((∃ o ∈ db.orders, o.buyer_id = some i) →
      (buyersDELETE (some i) db).1.status = 400 ∧
      (buyersDELETE (some i) db).1.error =
        some "Cannot delete buyer with linked orders" ∧
      (buyersDELETE (some i) db).2 = db) ∧
    ((¬ ∃ o ∈ db.orders, o.buyer_id = some i) →
      (buyersDELETE (some i) db).1.status = 204 ∧
      (buyersDELETE (some i) db).2.buyers =
        db.buyers.filter (fun b => ¬ b.id = i) ∧
      (∀ b ∈ (buyersDELETE (some i) db).2.buyers, b.id ≠ i) ∧
      (buyersDELETE (some i) db).2.orders = db.orders ∧
      (buyersDELETE (some i) db).2.blocks = db.blocks) := by
  refine ⟨?_, ?_, ?_, ?_⟩
  · rintro ⟨o, ho, hoi⟩
    have hpos : 0 <
        ((db.orders.filter (fun o => o.block_id = some i)).take 1).length :=
      (linked_take_pos_iff _ _).mpr ⟨o, ho, by simp [hoi]⟩
    have hpos2 : 0 <
        (db.orders.filter (fun o => o.block_id = some i)).length := by
      rw [List.length_take] at hpos
      omega
    simp [blocksDELETE, hpos2]
  · intro h
    have hnil : db.orders.filter (fun o => o.block_id = some i) = [] := by
      rw [List.filter_eq_nil_iff]
      intro a ha
      simp only [decide_eq_true_eq]
      exact fun he => h ⟨a, ha, he⟩
    refine ⟨by simp [blocksDELETE, hnil], by simp [blocksDELETE, hnil],
      ?_, by simp [blocksDELETE, hnil], by simp [blocksDELETE, hnil]⟩
    intro b hb
    simp only [blocksDELETE, hnil] at hb
    simp only [List.take_nil, List.length_nil, gt_iff_lt, lt_irrefl,
      if_false] at hb
    exact of_decide_eq_true (List.mem_filter.mp hb).2
  · rintro ⟨o, ho, hoi⟩
    have hpos : 0 <
        ((db.orders.filter (fun o => o.buyer_id = some i)).take 1).length :=
      (linked_take_pos_iff _ _).mpr ⟨o, ho, by simp [hoi]⟩
    have hpos2 : 0 <
        (db.orders.filter (fun o => o.buyer_id = some i)).length := by
      rw [List.length_take] at hpos
      omega
    simp [buyersDELETE, hpos2]
  · intro h
    have hnil : db.orders.filter (fun o => o.buyer_id = some i) = [] := by
      rw [List.filter_eq_nil_iff]
      intro a ha
      simp only [decide_eq_true_eq]
      exact fun he => h ⟨a, ha, he⟩
    refine ⟨by simp [buyersDELETE, hnil], by simp [buyersDELETE, hnil],
      ?_, by simp [buyersDELETE, hnil], by simp [buyersDELETE, hnil]⟩
    intro b hb
    simp only [buyersDELETE, hnil] at hb
    simp only [List.take_nil, List.length_nil, gt_iff_lt, lt_irrefl,
      if_false] at hb
    exact of_decide_eq_true (List.mem_filter.mp hb).2

/-- A sample database: one order linked to block 7 and buyer 3. -/
def refDb0 : RefTables :=
  { orders := [{ id := 1, block_id := some 7, buyer_id := some 3 }],
    blocks := [{ id := 7, rest := 0 }],
    buyers := [{ id := 3, rest := 0 }] }

/-- C3 witness: deleting block 7, which has a linked order, is rejected
with 400 and the database is unchanged. -/
theorem C3_delete_linked_guard_witness :
    (∃ o ∈ refDb0.orders, o.block_id = some 7) ∧
    (blocksDELETE (some 7) refDb0).1.status = 400 ∧
    (blocksDELETE (some 7) refDb0).1.error =
      some "Cannot delete block with linked orders" ∧
    (blocksDELETE (some 7) refDb0).2 = refDb0 :=
  ⟨by decide, (C3_delete_linked_guard 7 refDb0).1 (by decide)⟩

end Trovelore
